import Mathlib

/-!
Shallow embedding of the PGP key-bundle core (go/libkb/pgp_key.go) of the
keybase client repository, together with theorems settling the frozen claims
about its specification.

Modelling conventions:
* Go byte slices are `List Nat` (each entry < 256 where it matters).
* Go strings are Lean `String`; character-level helpers work on `List Char`.
* Nil pointers are `Option`/`none`; a Go nil-pointer dereference is modelled
  by an `Option`-valued function returning `none` (the "panic" outcome).
* The external OpenPGP engine (armored decode, entity serialization,
  `Entity.MergeKey`) and the SHA-256 digest are collaborators outside this
  repository; they are passed as explicit function parameters so that the
  theorems hold for every engine satisfying the stated contract.
-/

namespace PGP

/-! ## Data model (from go-crypto packet/openpgp structs, fields the core reads) -/

/-- An OpenPGP signature packet; the core only inspects its type tag
(`packet.Signature.SigType`). -/
structure Signature where
  SigType : Nat
deriving DecidableEq

/-- An OpenPGP private-key packet (`packet.PrivateKey`).  `Encrypted` mirrors the
Go field.  `Passphrase` models the external `Decrypt` contract from the spec:
decryption succeeds exactly for the passphrase the key was encrypted under, and
a wrong passphrase surfaces as the checksum-failure error. -/
structure PrivateKey where
  Encrypted : Bool
  Passphrase : String
deriving DecidableEq

/-- An OpenPGP public-key packet (`packet.PublicKey`).  `Serialized` models the
byte output of the external `Serialize` method as an opaque attribute of the
key (the engine writes the same bytes each time for a fixed key). -/
structure PublicKey where
  Fingerprint : List Nat
  PubKeyAlgo : Nat
  Serialized : List Nat
deriving DecidableEq

/-- An OpenPGP user-id identity (`openpgp.Identity`); the claims treat it as an
opaque record. -/
structure Identity where
  Name : String
deriving DecidableEq

/-- An OpenPGP subkey (`openpgp.Subkey`): its own key material, its binding
signature `Sig`, and an optional revocation signature. -/
structure Subkey where
  PublicKey : PublicKey
  PrivateKey : Option PrivateKey
  Sig : Signature
  Revocation : Option Signature
deriving DecidableEq

/-- A decoded OpenPGP entity (`openpgp.Entity`): primary key pair, identities,
subkeys, revocations, and the bad-subkey decode warnings collected by the
engine. -/
structure Entity where
  PrimaryKey : PublicKey
  PrivateKey : Option PrivateKey
  Identities : List Identity
  Subkeys : List Subkey
  Revocations : List Signature
  BadSubkeys : List String
deriving DecidableEq

/-- `libkb.PGPKeyBundle`: a decoded entity plus the cached canonical armored
form, the GPG fallback-signer flag and the generated-here provenance flag. -/
structure PGPKeyBundle where
  Entity : Entity
  GPGFallbackKey : Bool
  ArmoredPublicKey : String
  Generated : Bool
deriving DecidableEq

/-- `NewPGPKeyBundle`: wrap a decoded entity with all other fields zeroed. -/
def NewPGPKeyBundle (e : Entity) : PGPKeyBundle :=
  { Entity := e, GPGFallbackKey := false, ArmoredPublicKey := "", Generated := false }

/-- The error kinds the embedded operations produce (libkb error types). -/
inductive PGPError where
  | NoKey (msg : String)
  | TooManyKeys (n : Nat)
  | BadFingerprintLength (n : Nat)
  | HexDecodeFailed
  | DecodeFailed (msg : String)
  | BadSig (msg : String)
  | KeyCannotEncrypt
  | KeyCannotDecrypt
  | PassphraseFailure
  | SecretUIFailure
deriving DecidableEq

/-- The advisory warning collection (`libkb.Warnings`). -/
abbrev Warnings := List String

/-- `libkb.SigVerifyResult`. -/
structure SigVerifyResult where
  SigID : String
  WeakDigest : Option Nat
deriving DecidableEq

/-- `packet.SigTypeSubkeyBinding` (0x18). -/
def SigTypeSubkeyBinding : Nat := 24

/-- `PGPFingerprintLen`. -/
def PGPFingerprintLen : Nat := 20

/-- Modelled from the spec: the platform version byte of a derived identifier
(`kbcrypto.KeybaseKIDV1`, declared outside src/). -/
def KeybaseKIDV1 : Nat := 1

/-- Modelled from the spec: the suffix byte of a derived identifier
(`kbcrypto.IDSuffixKID`, declared outside src/). -/
def IDSuffixKID : Nat := 10

/-- `FastByteArrayEq`. Modelled from the spec: byte-exact comparison of two
byte sequences (declared outside src/). -/
def FastByteArrayEq (a b : List Nat) : Bool := a == b

/-! ## Fingerprint display and parsing -/

/-- The lowercase hex digit table used by Go `encoding/hex`. -/
def hexDigit : Nat → Char
  | 0 => '0' | 1 => '1' | 2 => '2' | 3 => '3' | 4 => '4'
  | 5 => '5' | 6 => '6' | 7 => '7' | 8 => '8' | 9 => '9'
  | 10 => 'a' | 11 => 'b' | 12 => 'c' | 13 => 'd' | 14 => 'e' | 15 => 'f'
  | _ => '0'

/-- Go `hex.Encode`: two lowercase hex characters per byte. -/
def hexEncode : List Nat → List Char
  | [] => []
  | b :: bs => hexDigit (b / 16) :: hexDigit (b % 16) :: hexEncode bs

/-- The value of one hex character, upper or lower case (Go `hex.Decode`
digit handling). -/
def hexDigitVal (c : Char) : Option Nat :=
  if '0' ≤ c ∧ c ≤ '9' then some (c.toNat - '0'.toNat)
  else if 'a' ≤ c ∧ c ≤ 'f' then some (c.toNat - 'a'.toNat + 10)
  else if 'A' ≤ c ∧ c ≤ 'F' then some (c.toNat - 'A'.toNat + 10)
  else none

/-- Go `hex.Decode` on an even-length character sequence: consume the input in
pairs, failing on any non-hex character. -/
def hexDecodePairs : List Char → Option (List Nat)
  | [] => some []
  | [_] => none
  | c1 :: c2 :: rest =>
    match hexDigitVal c1, hexDigitVal c2, hexDecodePairs rest with
    | some hi, some lo, some bs => some ((hi * 16 + lo) :: bs)
    | _, _, _ => none

inductive HexError where
  | WrongLength (n : Nat)
  | InvalidByte
deriving DecidableEq

/-- `DecodeHexFixed`. Modelled from the spec: fixed-length hex parse — the
input must be exactly twice the output length (else a length error) and every
character a hex digit (the function itself lives outside src/). -/
def DecodeHexFixed (dstLen : Nat) (src : List Char) : Except HexError (List Nat) :=
  if src.length ≠ 2 * dstLen then .error (.WrongLength src.length)
  else
    match hexDecodePairs src with
    | some bs => .ok bs
    | none => .error .InvalidByte

/-- `PGPFingerprintFromHex`: parse a fingerprint from hex, mapping the
wrong-length hex error to the "Bad fingerprint; wrong length" error. -/
def PGPFingerprintFromHex (s : String) : Except PGPError (List Nat) :=
  match DecodeHexFixed PGPFingerprintLen s.data with
  | .ok fp => .ok fp
  | .error (.WrongLength n) => .error (.BadFingerprintLength n)
  | .error .InvalidByte => .error .HexDecodeFailed

/-- `PGPFingerprint.String()`: lowercase hex rendering. -/
def fingerprintString (p : List Nat) : String := ⟨hexEncode p⟩

/-- The grouping loop of `ToQuads`: four characters, then a space, except after
the final group. -/
def quadGroups : List Char → List Char
  | a :: b :: c :: d :: e :: rest => a :: b :: c :: d :: ' ' :: quadGroups (e :: rest)
  | l => l

/-- `PGPFingerprint.ToQuads()`: uppercase the hex rendering and insert a space
after every four characters except at the end. -/
def ToQuads (p : List Nat) : String := ⟨quadGroups ((hexEncode p).map Char.toUpper)⟩

/-- `strings.ToLower` restricted to the ASCII data we feed it. -/
def strToLower (s : String) : String := ⟨s.data.map Char.toLower⟩

/-- `PGPFingerprint.Match`: a nil receiver never matches; otherwise compare the
lowercased hex rendering with the lowercased query, exactly or by suffix. -/
def Match (p : Option (List Nat)) (q : String) (ex : Bool) : Bool :=
  match p with
  | none => false
  | some fp =>
    if ex then strToLower (fingerprintString fp) == strToLower q
    else (strToLower q).data.isSuffixOf (strToLower (fingerprintString fp)).data

/-! ## Armor ingestion and repair -/

/-- The characters collapsed around newlines by `cleanPGPInputRxx`. -/
def isHWS (c : Char) : Bool := c == ' ' || c == '\t' || c == '\r'

/-- Go `unicode.IsSpace` on the ASCII range relevant to `strings.TrimSpace`. -/
def isSpaceChar (c : Char) : Bool :=
  c == ' ' || c == '\t' || c == '\n' || c == '\r' ||
  c == Char.ofNat 11 || c == Char.ofNat 12

/-- `strings.TrimSpace` on character lists. -/
def trimSpace (s : List Char) : List Char :=
  ((s.dropWhile isSpaceChar).reverse.dropWhile isSpaceChar).reverse

/-- One pass replacing every (leftmost, greedy) match of the pattern
"[ \t\r]*\n[ \t\r]*" by a single newline: `afterNL` records that we are inside
the trailing run of a just-replaced match, `buf` holds a pending run of
horizontal whitespace whose fate depends on the next character. -/
def collapseAux : Bool → List Char → List Char → List Char
  | _, buf, [] => buf.reverse
  | afterNL, buf, c :: cs =>
    if c == '\n' then '\n' :: collapseAux true [] cs
    else if isHWS c then
      if afterNL then collapseAux true buf cs
      else collapseAux false (c :: buf) cs
    else buf.reverse ++ c :: collapseAux false [] cs

/-- `cleanPGPInput`: trim surrounding whitespace, then collapse every run of
spaces/tabs/CRs bracketing a newline into a single newline. -/
def cleanPGPInput (s : String) : String :=
  ⟨collapseAux false [] (trimSpace s.data)⟩

/-- Split at the first newline, returning the first line and the rest of the
input including that newline (`strings.Index(a, "\n")`). -/
def breakAtNL : List Char → Option (List Char × List Char)
  | [] => none
  | c :: cs =>
    if c == '\n' then some ([], c :: cs)
    else
      match breakAtNL cs with
      | none => none
      | some (l, r) => some (c :: l, r)

def fiveDashes : List Char := ['-', '-', '-', '-', '-']

/-- The literal "-----BEGIN PGP " opening of `bug8612PrepassRxx`. -/
def beginPGPMarker : List Char := "-----BEGIN PGP ".data

/-- Lazy search of `bug8612PrepassRxx`: the earliest position of five dashes
followed by a nonempty remainder (the junk that `.+?` must consume). -/
def findHeaderEnd : List Char → Option Nat
  | [] => none
  | c :: cs =>
    if (c :: cs).take 5 == fiveDashes && !((c :: cs).drop 5).isEmpty then some 0
    else
      match findHeaderEnd cs with
      | none => none
      | some n => some (n + 1)

/-- `bug8612Prepass`: if the first line is a BEGIN PGP header with junk
trailing its closing dashes, rewrite that line to just the header and keep
everything from the first newline on unchanged. -/
def bug8612Prepass (a : String) : String :=
  match breakAtNL a.data with
  | none => a
  | some (line0, rest) =>
    if line0.take 15 == beginPGPMarker then
      match findHeaderEnd (line0.drop 15) with
      | some n => ⟨line0.take (15 + n + 5) ++ rest⟩
      | none => a
    else a

/-- `PGPKeyBundle.SamePrimaryAs`: primary-key fingerprint equality. -/
def SamePrimaryAs (k k2 : PGPKeyBundle) : Bool :=
  FastByteArrayEq k.Entity.PrimaryKey.Fingerprint k2.Entity.PrimaryKey.Fingerprint

/-- The loop body of `mergeKeysIfPossible`: `n` is the length of the original
additional-entity list (the error is computed from the parameter, not from the
remaining suffix), `mergeKey` is the external `Entity.MergeKey`. -/
def mergeKeysLoop (mergeKey : Entity → Entity → Entity) (n : Nat) :
    PGPKeyBundle → List Entity → Except PGPError PGPKeyBundle
  | out, [] => .ok out
  | out, e :: rest =>
    if SamePrimaryAs out (NewPGPKeyBundle e) then
      mergeKeysLoop mergeKey n { out with Entity := mergeKey out.Entity e } rest
    else .error (.TooManyKeys (n + 1))

/-- `mergeKeysIfPossible`: fold each additional entity into `out` while the
primary fingerprints agree; any mismatch aborts with a too-many-keys error
carrying one more than the length of the additional list. -/
def mergeKeysIfPossible (mergeKey : Entity → Entity → Entity)
    (out : PGPKeyBundle) (lst : List Entity) : Except PGPError PGPKeyBundle :=
  mergeKeysLoop mergeKey lst.length out lst

def badSubkeyWarning (msg : String) : String := "Bad subkey: " ++ msg

/-- `finishReadOne`: reject an empty decode, merge a multi-entity decode,
collect bad-subkey warnings, and cache the original armored text exactly when
the resulting entity has no private key. -/
def finishReadOne (mergeKey : Entity → Entity → Entity)
    (res : Except PGPError (List Entity)) (armored : String) :
    Except PGPError (PGPKeyBundle × Warnings) :=
  match res with
  | .error e => .error e
  | .ok [] => .error (.NoKey "No keys found in primary bundle")
  | .ok (e0 :: rest) =>
    let first := NewPGPKeyBundle e0
    match (if rest.isEmpty then .ok first else mergeKeysIfPossible mergeKey first rest :
        Except PGPError PGPKeyBundle) with
    | .error e => .error e
    | .ok first =>
      let w : Warnings := first.Entity.BadSubkeys.map badSubkeyWarning
      let first :=
        if first.Entity.PrivateKey = none then { first with ArmoredPublicKey := armored }
        else first
      .ok (first, w)

/-- `readOneKeyFromString`: clean the armored input (and in liberal mode repair
the bug-8612 header junk), hand the cleaned text to the external decoder, and
finish with the ORIGINAL armored text. -/
def readOneKeyFromString (decode : String → Except PGPError (List Entity))
    (mergeKey : Entity → Entity → Entity) (originalArmor : String) (liberal : Bool) :
    Except PGPError (PGPKeyBundle × Warnings) :=
  let cleanArmor := cleanPGPInput originalArmor
  let cleanArmor := if liberal then bug8612Prepass cleanArmor else cleanArmor
  finishReadOne mergeKey (decode cleanArmor) originalArmor

/-- `ReadOneKeyFromString` (strict mode). -/
def ReadOneKeyFromString (decode : String → Except PGPError (List Entity))
    (mergeKey : Entity → Entity → Entity) (originalArmor : String) :
    Except PGPError (PGPKeyBundle × Warnings) :=
  readOneKeyFromString decode mergeKey originalArmor false

/-- `ReadOneKeyFromStringLiberal`. -/
def ReadOneKeyFromStringLiberal (decode : String → Except PGPError (List Entity))
    (mergeKey : Entity → Entity → Entity) (originalArmor : String) :
    Except PGPError (PGPKeyBundle × Warnings) :=
  readOneKeyFromString decode mergeKey originalArmor true

/-! ## Encoding and derived values -/

/-- `PGPKeyBundle.Encode`: return the cached canonical armored form when one is
present; otherwise serialize through the external engine (`ser`) and cache the
result.  The returned bundle carries the (possibly updated) cache. -/
def Encode (ser : PGPKeyBundle → Except PGPError String) (k : PGPKeyBundle) :
    Except PGPError (String × PGPKeyBundle) :=
  if k.ArmoredPublicKey ≠ "" then .ok (k.ArmoredPublicKey, k)
  else
    match ser k with
    | .ok s => .ok (s, { k with ArmoredPublicKey := s })
    | .error e => .error e

/-- `PGPKeyBundle.StripRevocations`: rebuild from the cached armored text when
possible (falling back to a shallow copy), empty the revocation list, and keep
exactly the subkeys whose signature is a subkey binding with no revocation. -/
def StripRevocations (decode : String → Except PGPError (List Entity))
    (mergeKey : Entity → Entity → Entity) (k : PGPKeyBundle) : PGPKeyBundle :=
  let stripped? : Option PGPKeyBundle :=
    if k.ArmoredPublicKey ≠ "" then
      match ReadOneKeyFromString decode mergeKey k.ArmoredPublicKey with
      | .ok (b, _) => some b
      | .error _ => none
    else none
  let strippedKey :=
    match stripped? with
    | some b => b
    | none => NewPGPKeyBundle k.Entity
  let e := strippedKey.Entity
  let e2 := { e with
    Revocations := []
    Subkeys := e.Subkeys.filter
      (fun s => s.Sig.SigType == SigTypeSubkeyBinding && s.Revocation == none) }
  { strippedKey with Entity := e2 }

/-- `PGPKeyBundle.GetBinaryKID`: serialize the primary public key through the
external engine, strip the 8- or 9-byte header (9 exactly when the serialized
length is at least 193), digest the remainder with the external SHA-256
(`sha`), and frame the digest between the version/algorithm bytes and the
suffix byte. -/
def GetBinaryKID (sha : List Nat → List Nat) (k : PGPKeyBundle) : List Nat :=
  let pre := [KeybaseKIDV1 % 256, k.Entity.PrimaryKey.PubKeyAlgo % 256]
  let byts := k.Entity.PrimaryKey.Serialized
  let hdrBytes := 8
  let hdrBytes := if 193 ≤ byts.length then hdrBytes + 1 else hdrBytes
  let sum := sha (byts.drop hdrBytes)
  pre ++ sum ++ [IDSuffixKID % 256]

/-! ## Secret-key unlock -/

/-- `unlockPrivateKey` on a possibly-nil key pointer: a nil pointer panics
(`none`); an unencrypted key is a no-op; otherwise the external `Decrypt`
succeeds exactly on the key's passphrase and a wrong passphrase is normalized
to the bad-passphrase error. -/
def unlockPrivateKey : Option PrivateKey → String → Option (Except PGPError PrivateKey)
  | none, _ => none
  | some pk, pw =>
    if !pk.Encrypted then some (.ok pk)
    else if pw == pk.Passphrase then some (.ok { pk with Encrypted := false })
    else some (.error .PassphraseFailure)

/-- The subkey loop of `unlockAllPrivateKeys`. -/
def unlockSubkeys : List Subkey → String → Option (Except PGPError (List Subkey))
  | [], _ => some (.ok [])
  | s :: rest, pw =>
    match unlockPrivateKey s.PrivateKey pw with
    | none => none
    | some (.error e) => some (.error e)
    | some (.ok pk') =>
      match unlockSubkeys rest pw with
      | none => none
      | some (.error e) => some (.error e)
      | some (.ok rest') => some (.ok ({ s with PrivateKey := some pk' } :: rest'))

/-- `unlockAllPrivateKeys`: decrypt the primary key and then every subkey with
the same passphrase, stopping at the first failure. -/
def unlockAllPrivateKeys (k : PGPKeyBundle) (pw : String) :
    Option (Except PGPError PGPKeyBundle) :=
  match unlockPrivateKey k.Entity.PrivateKey pw with
  | none => none
  | some (.error e) => some (.error e)
  | some (.ok pk') =>
    match unlockSubkeys k.Entity.Subkeys pw with
    | none => none
    | some (.error e) => some (.error e)
    | some (.ok subs') =>
      some (.ok { k with Entity := { k.Entity with PrivateKey := some pk', Subkeys := subs' } })

/-- The subkey loop of `isAnyKeyEncrypted`: each subkey's private-key pointer
is dereferenced without a nil check. -/
def isAnyKeyEncryptedSub : List Subkey → Option Bool
  | [] => some false
  | s :: rest =>
    match s.PrivateKey with
    | none => none
    | some pk => if pk.Encrypted then some true else isAnyKeyEncryptedSub rest

/-- `isAnyKeyEncrypted`: reads `k.PrivateKey.Encrypted` and each
`subkey.PrivateKey.Encrypted` without nil checks (`none` = panic). -/
def isAnyKeyEncrypted (k : PGPKeyBundle) : Option Bool :=
  match k.Entity.PrivateKey with
  | none => none
  | some pk => if pk.Encrypted then some true else isAnyKeyEncryptedSub k.Entity.Subkeys

/-- Modelled from the spec: the `NewKeyUnlocker(5, ...).Run` retry machine
(declared outside src/) — up to five attempts, each prompting the secret UI
for a passphrase (an exhausted or declining UI is a prompt error), retrying
only on the bad-passphrase error; the second component counts prompts. -/
def runKeyUnlocker : Nat → Nat → PGPKeyBundle → List (Option String) →
    Option (Except PGPError (PGPKeyBundle × Nat))
  | 0, _, _, _ => some (.error .PassphraseFailure)
  | _ + 1, _, _, [] => some (.error .SecretUIFailure)
  | _ + 1, _, _, none :: _ => some (.error .SecretUIFailure)
  | b + 1, tries, k, some pw :: rest =>
    match unlockAllPrivateKeys k pw with
    | none => none
    | some (.ok k') => some (.ok (k', tries + 1))
    | some (.error .PassphraseFailure) => runKeyUnlocker b (tries + 1) k rest
    | some (.error e) => some (.error e)

/-- `PGPKeyBundle.Unlock`: short-circuit with success when no key is
encrypted, otherwise run the five-attempt unlock machine.  The result carries
the unlocked bundle and the number of prompt invocations; `none` is a panic. -/
def Unlock (k : PGPKeyBundle) (ui : List (Option String)) :
    Option (Except PGPError (PGPKeyBundle × Nat)) :=
  match isAnyKeyEncrypted k with
  | none => none
  | some false => some (.ok (k, 0))
  | some true => runKeyUnlocker 5 0 k ui

/-- The totality precondition of `Unlock`: the primary private-key pointer and
every subkey's private-key pointer are non-nil. -/
def pgpUnlockPre (k : PGPKeyBundle) : Prop :=
  k.Entity.PrivateKey.isSome = true ∧ ∀ s ∈ k.Entity.Subkeys, s.PrivateKey.isSome = true

/-! ## Generic key capability surface -/

/-- `PGPKeyBundle.EncryptToString`: always the key-cannot-encrypt error. -/
def EncryptToString (_k : PGPKeyBundle) (_plaintext : List Nat)
    (_sender : Option PGPKeyBundle) : Except PGPError String :=
  .error .KeyCannotEncrypt

/-- `PGPKeyBundle.DecryptFromString`: always the key-cannot-decrypt error. -/
def DecryptFromString (_k : PGPKeyBundle) (_ciphertext : String) :
    Except PGPError (List Nat) :=
  .error .KeyCannotDecrypt

/-- `PGPKeyBundle.CanEncrypt`. -/
def CanEncrypt (_k : PGPKeyBundle) : Bool := false

/-- `PGPKeyBundle.CanDecrypt`. -/
def CanDecrypt (_k : PGPKeyBundle) : Bool := false

/-- `PGPKeyBundle.SecretSymmetricKey`: always the key-cannot-encrypt error. -/
def SecretSymmetricKey (_k : PGPKeyBundle) (_reason : String) :
    Except PGPError (List Nat) :=
  .error .KeyCannotEncrypt

/-- `PGPKeyBundle.VerifyString`: run verify-and-extract (`vse`, the
`VerifyStringAndExtract` pipeline whose signature parsing and cryptographic
check live in the external engine), then demand the extracted payload be
byte-equal to the expected message, else the wrong-payload bad-signature
error. -/
def VerifyString (vse : String → Except PGPError (List Nat × SigVerifyResult))
    (sig : String) (msg : List Nat) : Except PGPError SigVerifyResult :=
  match vse sig with
  | .error e => .error e
  | .ok (extractedMsg, res) =>
    if FastByteArrayEq extractedMsg msg then .ok res
    else .error (.BadSig "wrong payload")

/-- Decidable equality for `Except` results, so concrete runs of the embedded
operations can be checked by evaluation. -/
instance {ε α : Type} [DecidableEq ε] [DecidableEq α] : DecidableEq (Except ε α) :=
  fun a b =>
    match a, b with
    | .ok x, .ok y =>
      if h : x = y then isTrue (by rw [h]) else isFalse (by intro hh; cases hh; exact h rfl)
    | .error x, .error y =>
      if h : x = y then isTrue (by rw [h]) else isFalse (by intro hh; cases hh; exact h rfl)
    | .ok _, .error _ => isFalse (by intro hh; cases hh)
    | .error _, .ok _ => isFalse (by intro hh; cases hh)

/-! ## Concrete values used by witnesses and counterexamples -/

/-- A concrete primary public key (200 serialized bytes, so the long-header
branch of the identifier derivation applies). -/
def pubW : PublicKey :=
  { Fingerprint := List.replicate 20 7, PubKeyAlgo := 1, Serialized := List.replicate 200 3 }

/-- A concrete public-only entity. -/
def entPubW : Entity :=
  { PrimaryKey := pubW, PrivateKey := none, Identities := [], Subkeys := [],
    Revocations := [], BadSubkeys := [] }

/-- A concrete unencrypted private key. -/
def pkPlainW : PrivateKey := { Encrypted := false, Passphrase := "pw" }

/-- A concrete subkey holding an unencrypted private key under an unrevoked
binding signature. -/
def subPlainW : Subkey :=
  { PublicKey := pubW, PrivateKey := some pkPlainW,
    Sig := { SigType := SigTypeSubkeyBinding }, Revocation := none }

/-- A concrete entity whose primary key and single subkey both hold
unencrypted private material. -/
def entPrivW : Entity :=
  { PrimaryKey := pubW, PrivateKey := some pkPlainW, Identities := [],
    Subkeys := [subPlainW], Revocations := [], BadSubkeys := [] }

/-- A decoder that finds no key in empty input and one public entity in any
other input. -/
def decodeW (s : String) : Except PGPError (List Entity) :=
  if s = "" then .ok [] else .ok [entPubW]

/-- A merge collaborator that keeps the receiving entity. -/
def mergeW (a : Entity) (_b : Entity) : Entity := a

/-- A serializer that always fails, so that any successful encode must have
come from the cache. -/
def serFailW (_k : PGPKeyBundle) : Except PGPError String := .error (.NoKey "no serializer")

/-- A decoder that always fails. -/
def decFailW (_s : String) : Except PGPError (List Entity) := .error (.NoKey "decode failed")

/-- The bundle produced by ingesting the armored text "k" through `decodeW`. -/
def bundleC1W : PGPKeyBundle :=
  { Entity := entPubW, GPGFallbackKey := false, ArmoredPublicKey := "k", Generated := false }

/-- A bundle whose private material is present and unencrypted throughout. -/
def bundlePlainW : PGPKeyBundle := NewPGPKeyBundle entPrivW

/-- A public-only bundle: its primary private-key pointer is nil. -/
def bundlePubOnlyW : PGPKeyBundle := NewPGPKeyBundle entPubW

/-- A subkey that is NOT revoked but whose attached signature is not a
subkey-binding signature. -/
def subNoBindW : Subkey :=
  { PublicKey := pubW, PrivateKey := none, Sig := { SigType := 0 }, Revocation := none }

/-- An uncached bundle carrying `subNoBindW` and one identity. -/
def bundleC6W : PGPKeyBundle :=
  NewPGPKeyBundle
    { PrimaryKey := pubW, PrivateKey := none, Identities := [{ Name := "id" }],
      Subkeys := [subNoBindW], Revocations := [{ SigType := 32 }], BadSubkeys := [] }

/-- The all-zero fingerprint. -/
def fp0W : List Nat := List.replicate 20 0

/-- A constant 32-byte digest collaborator. -/
def sha32W (_bs : List Nat) : List Nat := List.replicate 32 0

/-- A concrete verification result. -/
def resW : SigVerifyResult := { SigID := "sid", WeakDigest := none }

/-- A verify-and-extract collaborator that succeeds with payload `[1]`. -/
def vseW (_sig : String) : Except PGPError (List Nat × SigVerifyResult) :=
  .ok ([1], resW)

/-! ## Theorems -/

/-- Claim C8: the encryption-capability operations always fail with the
dedicated errors — `EncryptToString` and `SecretSymmetricKey` with
key-cannot-encrypt, `DecryptFromString` with key-cannot-decrypt — and
`CanEncrypt`/`CanDecrypt` always report false; none silently no-ops. -/
theorem c8_encryption_always_fails :
    (∀ k pt sender, EncryptToString k pt sender = .error .KeyCannotEncrypt) ∧
    (∀ k ct, DecryptFromString k ct = .error .KeyCannotDecrypt) ∧
    (∀ k reason, SecretSymmetricKey k reason = .error .KeyCannotEncrypt) ∧
    (∀ k, CanEncrypt k = false) ∧
    (∀ k, CanDecrypt k = false) := by
  refine ⟨fun _ _ _ => rfl, fun _ _ => rfl, fun _ _ => rfl, fun _ => rfl, fun _ => rfl⟩

/-- Claim C10: for every query string and both matching modes, `Match` on a
nil fingerprint pointer returns false — the nil receiver is a handled total
case, not an error. -/
theorem c10_match_nil_receiver :
    ∀ (q : String) (ex : Bool), Match none q ex = false := by
  intro q ex
  rfl

/-- Claim C3: the derived binary identifier is the concatenation of the
platform version byte, the public-key-algorithm byte, the digest of the
primary key's serialized bytes with the leading header stripped (8 bytes of
header, or 9 exactly when the serialized length is at least 193), and the
suffix byte; with a 32-byte digest the identifier is 35 bytes long. -/
theorem c3_binary_kid_format (sha : List Nat → List Nat) (k : PGPKeyBundle) :
    GetBinaryKID sha k =
      KeybaseKIDV1 % 256 :: k.Entity.PrimaryKey.PubKeyAlgo % 256 ::
        (sha (k.Entity.PrimaryKey.Serialized.drop
            (if 193 ≤ k.Entity.PrimaryKey.Serialized.length then 9 else 8)) ++
          [IDSuffixKID % 256]) ∧
    ((∀ bs, (sha bs).length = 32) → (GetBinaryKID sha k).length = 35) := by
  constructor
  · unfold GetBinaryKID
    by_cases h : 193 ≤ k.Entity.PrimaryKey.Serialized.length <;> simp [h]
  · intro hsha
    unfold GetBinaryKID
    by_cases h : 193 ≤ k.Entity.PrimaryKey.Serialized.length <;> simp [h, hsha]

/-- Witness for C3 at a concrete digest collaborator and bundle, discharging
the 32-byte-digest hypothesis. -/
theorem c3_binary_kid_format_witness :
    (GetBinaryKID sha32W bundlePubOnlyW).length = 35 :=
  (c3_binary_kid_format sha32W bundlePubOnlyW).2 (fun bs => by simp [sha32W])

/-- If every subkey carries an unencrypted private key, the encryption scan of
the subkey list completes and reports false. -/
theorem isAnyKeyEncryptedSub_false (subs : List Subkey)
    (h : ∀ s ∈ subs, ∃ sp, s.PrivateKey = some sp ∧ sp.Encrypted = false) :
    isAnyKeyEncryptedSub subs = some false := by
  induction subs with
  | nil => rfl
  | cons s rest ih =>
    obtain ⟨sp, hsp, henc⟩ := h s (by simp)
    simp only [isAnyKeyEncryptedSub, hsp, henc]
    simpa using ih (fun s' hs' => h s' (by simp [hs']))

/-- Claim C4: when no private key material is encrypted — the primary key and
every subkey hold present, unencrypted private keys — `Unlock` returns success
immediately with the bundle unchanged and zero prompt invocations: the retry
machine is never entered. -/
theorem c4_unlock_short_circuit (k : PGPKeyBundle) (ui : List (Option String))
    (pk : PrivateKey) (hpk : k.Entity.PrivateKey = some pk) (henc : pk.Encrypted = false)
    (hsub : ∀ s ∈ k.Entity.Subkeys, ∃ sp, s.PrivateKey = some sp ∧ sp.Encrypted = false) :
    Unlock k ui = some (.ok (k, 0)) := by
  unfold Unlock isAnyKeyEncrypted
  rw [hpk]
  simp [henc, isAnyKeyEncryptedSub_false _ hsub]

/-- Witness for C4 at a concrete fully-unencrypted bundle. -/
theorem c4_unlock_short_circuit_witness :
    Unlock bundlePlainW [] = some (.ok (bundlePlainW, 0)) :=
  c4_unlock_short_circuit bundlePlainW [] pkPlainW rfl rfl
    (by
      intro s hs
      simp only [bundlePlainW, NewPGPKeyBundle, entPrivW, List.mem_singleton] at hs
      subst hs
      exact ⟨pkPlainW, rfl, rfl⟩)

/-- `unlockPrivateKey` on a present key never panics. -/
theorem unlockPrivateKey_isSome (sp : PrivateKey) (pw : String) :
    (unlockPrivateKey (some sp) pw).isSome = true := by
  unfold unlockPrivateKey
  by_cases he : sp.Encrypted <;> by_cases hp : pw == sp.Passphrase <;> simp [he, hp]

/-- `unlockSubkeys` never panics when every subkey's private key is present. -/
theorem unlockSubkeys_isSome (subs : List Subkey) (pw : String)
    (h : ∀ s ∈ subs, s.PrivateKey.isSome = true) :
    (unlockSubkeys subs pw).isSome = true := by
  induction subs with
  | nil => rfl
  | cons s rest ih =>
    rcases Option.isSome_iff_exists.mp (h s (by simp)) with ⟨sp, hsp⟩
    rcases Option.isSome_iff_exists.mp (unlockPrivateKey_isSome sp pw) with ⟨r, hr⟩
    rcases Option.isSome_iff_exists.mp (ih fun s' hs' => h s' (by simp [hs'])) with ⟨r2, hr2⟩
    cases r with
    | error e => simp [unlockSubkeys, hsp, hr]
    | ok pk' =>
      cases r2 with
      | error e => simp [unlockSubkeys, hsp, hr, hr2]
      | ok rest' => simp [unlockSubkeys, hsp, hr, hr2]

/-- `unlockAllPrivateKeys` never panics under the totality precondition. -/
theorem unlockAllPrivateKeys_isSome (k : PGPKeyBundle) (pw : String)
    (h1 : k.Entity.PrivateKey.isSome = true)
    (h2 : ∀ s ∈ k.Entity.Subkeys, s.PrivateKey.isSome = true) :
    (unlockAllPrivateKeys k pw).isSome = true := by
  rcases Option.isSome_iff_exists.mp h1 with ⟨pk, hpk⟩
  rcases Option.isSome_iff_exists.mp (unlockPrivateKey_isSome pk pw) with ⟨r, hr⟩
  cases r with
  | error e => simp [unlockAllPrivateKeys, hpk, hr]
  | ok pk' =>
    rcases Option.isSome_iff_exists.mp (unlockSubkeys_isSome _ pw h2) with ⟨r2, hr2⟩
    cases r2 with
    | error e => simp [unlockAllPrivateKeys, hpk, hr, hr2]
    | ok subs' => simp [unlockAllPrivateKeys, hpk, hr, hr2]

/-- The retry machine never panics under the totality precondition. -/
theorem runKeyUnlocker_isSome (budget tries : Nat) (k : PGPKeyBundle)
    (ui : List (Option String))
    (h1 : k.Entity.PrivateKey.isSome = true)
    (h2 : ∀ s ∈ k.Entity.Subkeys, s.PrivateKey.isSome = true) :
    (runKeyUnlocker budget tries k ui).isSome = true := by
  induction budget generalizing tries ui with
  | zero => rfl
  | succ b ih =>
    match ui with
    | [] => rfl
    | none :: rest => rfl
    | some pw :: rest =>
      rcases Option.isSome_iff_exists.mp (unlockAllPrivateKeys_isSome k pw h1 h2) with ⟨r, hr⟩
      cases r with
      | ok k' => simp [runKeyUnlocker, hr]
      | error e =>
        cases e <;> simp [runKeyUnlocker, hr]
        exact ih (tries + 1) rest

/-- The encryption scan of the subkey list never panics when every subkey's
private key is present. -/
theorem isAnyKeyEncryptedSub_isSome (subs : List Subkey)
    (h : ∀ s ∈ subs, s.PrivateKey.isSome = true) :
    (isAnyKeyEncryptedSub subs).isSome = true := by
  induction subs with
  | nil => rfl
  | cons s rest ih =>
    rcases Option.isSome_iff_exists.mp (h s (by simp)) with ⟨sp, hsp⟩
    by_cases he : sp.Encrypted
    · simp [isAnyKeyEncryptedSub, hsp, he]
    · simp only [isAnyKeyEncryptedSub, hsp, he, Bool.false_eq_true, if_false]
      exact ih fun s' hs' => h s' (by simp [hs'])

/-- Claim C9: `Unlock` is panic-free under the precondition that the primary
private-key pointer and every subkey's private-key pointer are non-nil (the
initial encryption scan dereferences them without nil checks); and for a
bundle violating the precondition — here a public-only bundle — the panic
branch is reached on the first step of `Unlock`. -/
theorem c9_unlock_totality :
    (∀ k ui, pgpUnlockPre k → (Unlock k ui).isSome = true) ∧
    Unlock bundlePubOnlyW [] = none := by
  constructor
  · rintro k ui ⟨h1, h2⟩
    rcases Option.isSome_iff_exists.mp h1 with ⟨pk, hpk⟩
    unfold Unlock isAnyKeyEncrypted
    rw [hpk]
    by_cases he : pk.Encrypted
    · simpa [he] using runKeyUnlocker_isSome 5 0 k ui h1 h2
    · rcases Option.isSome_iff_exists.mp (isAnyKeyEncryptedSub_isSome _ h2) with ⟨b, hb⟩
      simp only [he, Bool.false_eq_true, if_false, hb]
      cases b
      · simp
      · simpa using runKeyUnlocker_isSome 5 0 k ui h1 h2
  · rfl

/-- The bundle-level merge fold has the entity-level fold as its entity. -/
theorem foldl_bundle_entity (mk : Entity → Entity → Entity) (lst : List Entity) :
    ∀ out : PGPKeyBundle,
      (lst.foldl (fun b e => { b with Entity := mk b.Entity e }) out).Entity =
        lst.foldl mk out.Entity := by
  induction lst with
  | nil => intro out; rfl
  | cons e rest ih => intro out; simpa using ih _

/-- When every entity of the list shares the accumulator's primary
fingerprint, the merge loop succeeds with the fold of the external merge. -/
theorem mergeKeysLoop_ok (mk : Entity → Entity → Entity)
    (hm : ∀ a b, (mk a b).PrimaryKey = a.PrimaryKey) (n : Nat) (lst : List Entity) :
    ∀ out : PGPKeyBundle,
      (∀ e ∈ lst, e.PrimaryKey.Fingerprint = out.Entity.PrimaryKey.Fingerprint) →
      mergeKeysLoop mk n out lst =
        .ok (lst.foldl (fun b e => { b with Entity := mk b.Entity e }) out) := by
  induction lst with
  | nil => intro out _; rfl
  | cons e rest ih =>
    intro out h
    have hfp : e.PrimaryKey.Fingerprint = out.Entity.PrimaryKey.Fingerprint := h e (by simp)
    have hsame : SamePrimaryAs out (NewPGPKeyBundle e) = true := by
      simp [SamePrimaryAs, FastByteArrayEq, NewPGPKeyBundle, hfp]
    simp only [mergeKeysLoop, hsame, if_true, List.foldl_cons]
    refine ih _ (fun e' he' => ?_)
    show e'.PrimaryKey.Fingerprint = (mk out.Entity e).PrimaryKey.Fingerprint
    rw [hm out.Entity e]
    exact h e' (by simp [he'])

/-- Any fingerprint mismatch in the list aborts the merge loop with the
too-many-keys error computed from the original list length parameter. -/
theorem mergeKeysLoop_err (mk : Entity → Entity → Entity)
    (hm : ∀ a b, (mk a b).PrimaryKey = a.PrimaryKey) (n : Nat) (lst : List Entity) :
    ∀ out : PGPKeyBundle,
      (∃ e ∈ lst, e.PrimaryKey.Fingerprint ≠ out.Entity.PrimaryKey.Fingerprint) →
      mergeKeysLoop mk n out lst = .error (.TooManyKeys (n + 1)) := by
  induction lst with
  | nil =>
    rintro out ⟨e, he, -⟩
    exact absurd he (by simp)
  | cons e rest ih =>
    rintro out ⟨e', he', hne⟩
    by_cases hfp : e.PrimaryKey.Fingerprint = out.Entity.PrimaryKey.Fingerprint
    · have hsame : SamePrimaryAs out (NewPGPKeyBundle e) = true := by
        simp [SamePrimaryAs, FastByteArrayEq, NewPGPKeyBundle, hfp]
      simp only [mergeKeysLoop, hsame, if_true]
      refine ih _ ?_
      rcases List.mem_cons.mp he' with rfl | hmem
      · exact absurd hfp hne
      · refine ⟨e', hmem, ?_⟩
        show e'.PrimaryKey.Fingerprint ≠ (mk out.Entity e).PrimaryKey.Fingerprint
        rw [hm out.Entity e]
        exact hne
    · have hsame : SamePrimaryAs out (NewPGPKeyBundle e) = false := by
        simp only [SamePrimaryAs, FastByteArrayEq, NewPGPKeyBundle]
        exact beq_eq_false_iff_ne.mpr (fun hh => hfp hh.symm)
      simp [mergeKeysLoop, hsame]

/-- Claim C2: for a decoded list of more than one entity, the merge step of
`finishReadOne` succeeds — folding each additional entity into the first via
the external merge — exactly when every additional entity's primary-key
fingerprint equals the first entity's; any mismatch aborts the whole read with
a too-many-keys error carrying the length of the full decoded list.  The
external merge is assumed to preserve the primary key of its receiver. -/
theorem c2_merge (mk : Entity → Entity → Entity)
    (hm : ∀ a b, (mk a b).PrimaryKey = a.PrimaryKey)
    (first : Entity) (rest : List Entity) (armor : String) (hrest : rest ≠ []) :
    ((∀ e ∈ rest, e.PrimaryKey.Fingerprint = first.PrimaryKey.Fingerprint) →
      ∃ b w, finishReadOne mk (.ok (first :: rest)) armor = .ok (b, w) ∧
        b.Entity = rest.foldl mk first) ∧
    ((∃ e ∈ rest, e.PrimaryKey.Fingerprint ≠ first.PrimaryKey.Fingerprint) →
      finishReadOne mk (.ok (first :: rest)) armor =
        .error (.TooManyKeys (first :: rest).length)) := by
  have hne : rest.isEmpty = false := by
    cases rest with
    | nil => exact absurd rfl hrest
    | cons a l => rfl
  constructor
  · intro hall
    have hok := mergeKeysLoop_ok mk hm rest.length rest (NewPGPKeyBundle first)
      (by intro e he; simpa [NewPGPKeyBundle] using hall e he)
    set B := rest.foldl (fun b e => { b with Entity := mk b.Entity e })
      (NewPGPKeyBundle first) with hB
    have hent : B.Entity = rest.foldl mk first := by
      simpa [NewPGPKeyBundle] using
        foldl_bundle_entity mk rest (NewPGPKeyBundle first)
    by_cases hpriv : B.Entity.PrivateKey = none
    · refine ⟨{ B with ArmoredPublicKey := armor },
        B.Entity.BadSubkeys.map badSubkeyWarning, ?_, hent⟩
      simp only [finishReadOne, hne, Bool.false_eq_true, if_false, mergeKeysIfPossible, hok]
      simp [hpriv]
    · refine ⟨B, B.Entity.BadSubkeys.map badSubkeyWarning, ?_, hent⟩
      simp only [finishReadOne, hne, Bool.false_eq_true, if_false, mergeKeysIfPossible, hok]
      simp [hpriv]
  · intro hex
    have herr := mergeKeysLoop_err mk hm rest.length rest (NewPGPKeyBundle first)
      (by
        rcases hex with ⟨e, he, hne'⟩
        exact ⟨e, he, by simpa [NewPGPKeyBundle] using hne'⟩)
    simp only [finishReadOne, hne, Bool.false_eq_true, if_false, mergeKeysIfPossible, herr,
      List.length_cons]

/-- Whenever `finishReadOne` succeeds and the resulting entity has no private
key, the cache holds exactly the armored text handed to `finishReadOne`. -/
theorem finishReadOne_cache (mk : Entity → Entity → Entity)
    (res : Except PGPError (List Entity)) (armored : String) (b : PGPKeyBundle)
    (w : Warnings) (h : finishReadOne mk res armored = .ok (b, w))
    (hpriv : b.Entity.PrivateKey = none) :
    b.ArmoredPublicKey = armored := by
  cases res with
  | error e => simp [finishReadOne] at h
  | ok lst =>
    cases lst with
    | nil => simp [finishReadOne] at h
    | cons e0 rest =>
      simp only [finishReadOne] at h
      cases hmerge : (if rest.isEmpty then Except.ok (NewPGPKeyBundle e0)
          else mergeKeysIfPossible mk (NewPGPKeyBundle e0) rest) with
      | error e =>
        rw [hmerge] at h
        simp at h
      | ok first' =>
        rw [hmerge] at h
        by_cases hp : first'.Entity.PrivateKey = none
        · simp only [hp, if_true, Except.ok.injEq, Prod.mk.injEq] at h
          rw [← h.1]
        · simp only [hp, if_false, Except.ok.injEq, Prod.mk.injEq] at h
          exact absurd (h.1 ▸ hpriv) hp

/-- Claim C1: a successful armored ingestion (strict or liberal) whose
resulting entity has no private key caches the ORIGINAL input text verbatim
(not the whitespace-cleaned text) as the canonical armored form, and every
subsequent `Encode` returns exactly that cached string with the bundle
unchanged, for any serializer — i.e. without re-serializing.  The decoder is
only assumed to find no entities in empty input. -/
theorem c1_cache_original_armor (decode : String → Except PGPError (List Entity))
    (mk : Entity → Entity → Entity) (ser : PGPKeyBundle → Except PGPError String)
    (originalArmor : String) (liberal : Bool) (b : PGPKeyBundle) (w : Warnings)
    (hread : readOneKeyFromString decode mk originalArmor liberal = .ok (b, w))
    (hpriv : b.Entity.PrivateKey = none)
    (hempty : ∀ r, decode "" = .ok r → r = []) :
    b.ArmoredPublicKey = originalArmor ∧ Encode ser b = .ok (originalArmor, b) := by
  simp only [readOneKeyFromString] at hread
  have harm : b.ArmoredPublicKey = originalArmor :=
    finishReadOne_cache mk _ originalArmor b w hread hpriv
  have hne : originalArmor ≠ "" := by
    intro h0
    subst h0
    have hclean : cleanPGPInput "" = "" := by decide
    have hprep : bug8612Prepass "" = "" := by decide
    rw [hclean] at hread
    cases liberal with
    | true =>
      rw [if_pos rfl, hprep] at hread
      cases hd : decode "" with
      | error e => rw [hd] at hread; simp [finishReadOne] at hread
      | ok r =>
        have hr := hempty r hd
        subst hr
        rw [hd] at hread
        simp [finishReadOne] at hread
    | false =>
      rw [if_neg (by simp)] at hread
      cases hd : decode "" with
      | error e => rw [hd] at hread; simp [finishReadOne] at hread
      | ok r =>
        have hr := hempty r hd
        subst hr
        rw [hd] at hread
        simp [finishReadOne] at hread
  refine ⟨harm, ?_⟩
  unfold Encode
  rw [if_pos (by rw [harm]; exact hne)]
  rw [harm]

/-- Witness for C1 at a concrete decoder, with a serializer that always
fails — the successful encode can only have come from the cache. -/
theorem c1_cache_original_armor_witness :
    bundleC1W.ArmoredPublicKey = "k" ∧
      Encode serFailW bundleC1W = .ok ("k", bundleC1W) :=
  c1_cache_original_armor decodeW mergeW serFailW "k" false bundleC1W []
    rfl rfl
    (by
      intro r h
      have hd : decodeW "" = Except.ok [] := rfl
      rw [hd] at h
      injection h with h2
      exact h2.symm)

/-- Witness for C2 applying its success part to a duplicated entity list. -/
theorem c2_merge_witness :
    ∃ b w, finishReadOne mergeW (.ok [entPubW, entPubW]) "" = .ok (b, w) ∧
      b.Entity = [entPubW].foldl mergeW entPubW :=
  (c2_merge mergeW (fun _ _ => rfl) entPubW [entPubW] "" (by simp)).1
    (by
      intro e he
      simp only [List.mem_singleton] at he
      subst he
      rfl)

/-- Counterexample to C6 as stated: `bundleC6W` has a single subkey that is
NOT revoked (its `Revocation` is nil) yet `StripRevocations` drops it, because
its attached signature is not a subkey-binding signature — so the stripped
variant does not preserve every non-revoked subkey. -/
theorem c6_strip_revocations_counterexample :
    bundleC6W.Entity.Subkeys = [subNoBindW] ∧ subNoBindW.Revocation = none ∧
    (StripRevocations decFailW mergeW bundleC6W).Entity.Subkeys = [] :=
  ⟨rfl, rfl, rfl⟩

/-- Claim C6 (amended): `StripRevocations` empties the top-level revocation
list and keeps exactly the subkeys whose attached signature is a
subkey-binding signature with no revocation (so a non-revoked subkey with a
non-binding signature is also dropped), preserving identities — under the
engine contract that re-decoding the cleaned cached armored text yields the
original entity. -/
theorem c6_strip_revocations (decode : String → Except PGPError (List Entity))
    (mk : Entity → Entity → Entity) (k : PGPKeyBundle)
    (hdec : k.ArmoredPublicKey ≠ "" →
      decode (cleanPGPInput k.ArmoredPublicKey) = .ok [k.Entity]) :
    (StripRevocations decode mk k).Entity.Revocations = [] ∧
    (StripRevocations decode mk k).Entity.Subkeys =
      k.Entity.Subkeys.filter
        (fun s => s.Sig.SigType == SigTypeSubkeyBinding && s.Revocation == none) ∧
    (StripRevocations decode mk k).Entity.Identities = k.Entity.Identities := by
  by_cases ha : k.ArmoredPublicKey = ""
  · simp [StripRevocations, ha, NewPGPKeyBundle]
  · have hd := hdec ha
    by_cases hp : k.Entity.PrivateKey = none <;>
      simp [StripRevocations, ReadOneKeyFromString, readOneKeyFromString, hd,
        finishReadOne, ha, hp, NewPGPKeyBundle]

/-- Witness for C6 applying the amended theorem at a concrete uncached bundle
(the decoder hypothesis is vacuous there). -/
theorem c6_strip_revocations_witness :
    (StripRevocations decFailW mergeW bundleC6W).Entity.Revocations = [] ∧
    (StripRevocations decFailW mergeW bundleC6W).Entity.Subkeys =
      bundleC6W.Entity.Subkeys.filter
        (fun s => s.Sig.SigType == SigTypeSubkeyBinding && s.Revocation == none) ∧
    (StripRevocations decFailW mergeW bundleC6W).Entity.Identities =
      bundleC6W.Entity.Identities :=
  c6_strip_revocations decFailW mergeW bundleC6W (fun h => absurd rfl h)

/-- Claim C7: when verify-and-extract succeeds on a signature with payload
`m`, verify-with-expected-message returns the verification result exactly for
a byte-equal expected payload, and fails with the distinct wrong-payload
bad-signature error for any differing expected payload. -/
theorem c7_verify_expected (vse : String → Except PGPError (List Nat × SigVerifyResult))
    (sig : String) (m : List Nat) (res : SigVerifyResult)
    (h : vse sig = .ok (m, res)) (m2 : List Nat) :
    (m2 = m → VerifyString vse sig m2 = .ok res) ∧
    (m2 ≠ m → VerifyString vse sig m2 = .error (.BadSig "wrong payload")) := by
  constructor
  · intro he
    subst he
    simp [VerifyString, h, FastByteArrayEq]
  · intro hne
    have hbeq : (m == m2) = false := beq_eq_false_iff_ne.mpr (fun hh => hne hh.symm)
    simp [VerifyString, h, FastByteArrayEq, hbeq]

/-- Witness for C7 at a concrete verify-and-extract collaborator, exercising
both the equal-payload and differing-payload outcomes. -/
theorem c7_verify_expected_witness :
    VerifyString vseW "" [1] = .ok resW ∧
    VerifyString vseW "" [2] = .error (.BadSig "wrong payload") :=
  ⟨(c7_verify_expected vseW "" [1] resW rfl [1]).1 rfl,
   (c7_verify_expected vseW "" [1] resW rfl [2]).2 (by decide)⟩

/-- The data of an explicitly constructed string. -/
theorem string_data_mk (l : List Char) : (String.mk l).data = l := rfl

/-- Every hex digit decodes back to its value. -/
theorem hexDigitVal_hexDigit : ∀ d, d < 16 → hexDigitVal (hexDigit d) = some d := by
  decide

/-- Hex encoding produces two characters per byte. -/
theorem hexEncode_length (bs : List Nat) : (hexEncode bs).length = 2 * bs.length := by
  induction bs with
  | nil => rfl
  | cons b rest ih =>
    simp only [hexEncode, List.length_cons, ih]
    omega

/-- Pairwise hex decoding inverts hex encoding on byte lists. -/
theorem hexDecodePairs_hexEncode (bs : List Nat) (h : ∀ b ∈ bs, b < 256) :
    hexDecodePairs (hexEncode bs) = some bs := by
  induction bs with
  | nil => rfl
  | cons b rest ih =>
    have hb : b < 256 := h b (by simp)
    have h1 : hexDigitVal (hexDigit (b / 16)) = some (b / 16) :=
      hexDigitVal_hexDigit _ (by omega)
    have h2 : hexDigitVal (hexDigit (b % 16)) = some (b % 16) :=
      hexDigitVal_hexDigit _ (by omega)
    have hrest := ih (fun x hx => h x (by simp [hx]))
    simp only [hexEncode, hexDecodePairs, h1, h2, hrest]
    have hdm : b / 16 * 16 + b % 16 = b := by omega
    rw [hdm]

/-- The length of the quad-grouped rendering. -/
theorem quadGroups_length : ∀ xs : List Char,
    (quadGroups xs).length = xs.length + (xs.length - 1) / 4
  | [] => by simp [quadGroups]
  | [a] => by simp [quadGroups]
  | [a, b] => by simp [quadGroups]
  | [a, b, c] => by simp [quadGroups]
  | [a, b, c, d] => by simp [quadGroups]
  | a :: b :: c :: d :: e :: rest => by
    have ih := quadGroups_length (e :: rest)
    simp only [quadGroups, List.length_cons, ih]
    omega

/-- Counterexample to C5 as stated: parsing the space-grouped uppercase quads
display of the all-zero fingerprint does not recover it — the hex parser
rejects the 49-character grouped display with a wrong-length error. -/
theorem c5_roundtrip_counterexample :
    PGPFingerprintFromHex (ToQuads fp0W) ≠ .ok fp0W ∧
    PGPFingerprintFromHex (ToQuads fp0W) = .error (.BadFingerprintLength 49) := by
  constructor
  · decide
  · decide

/-- Claim C5 (amended): for every 20-byte fingerprint, parsing the lowercase
hex display recovers the fingerprint, but parsing the space-grouped uppercase
quads display always fails with the wrong-length fingerprint error (the
grouped display is 49 characters, not the 40 the fixed-length hex parser
demands). -/
theorem c5_roundtrip (fp : List Nat) (hlen : fp.length = 20)
    (hb : ∀ b ∈ fp, b < 256) :
    PGPFingerprintFromHex (fingerprintString fp) = .ok fp ∧
    PGPFingerprintFromHex (ToQuads fp) = .error (.BadFingerprintLength 49) := by
  have hel : (hexEncode fp).length = 40 := by rw [hexEncode_length, hlen]
  constructor
  · have hdec := hexDecodePairs_hexEncode fp hb
    show PGPFingerprintFromHex ⟨hexEncode fp⟩ = .ok fp
    unfold PGPFingerprintFromHex DecodeHexFixed
    rw [string_data_mk]
    rw [if_neg (by rw [hel]; decide)]
    rw [hdec]
  · have hq : (quadGroups ((hexEncode fp).map Char.toUpper)).length = 49 := by
      rw [quadGroups_length, List.length_map, hel]
    show PGPFingerprintFromHex ⟨quadGroups ((hexEncode fp).map Char.toUpper)⟩ = _
    unfold PGPFingerprintFromHex DecodeHexFixed
    rw [string_data_mk]
    rw [if_pos (by rw [hq]; decide), hq]

/-- Witness for C5 applying the amended round-trip at the all-zero
fingerprint. -/
theorem c5_roundtrip_witness :
    PGPFingerprintFromHex (fingerprintString fp0W) = .ok fp0W ∧
    PGPFingerprintFromHex (ToQuads fp0W) = .error (.BadFingerprintLength 49) :=
  c5_roundtrip fp0W (by decide) (by decide)

/-- Witness for C9 applying its universal part at a concrete bundle
satisfying the precondition. -/
theorem c9_unlock_totality_witness : (Unlock bundlePlainW []).isSome = true :=
  c9_unlock_totality.1 bundlePlainW []
    ⟨rfl, by
      intro s hs
      simp only [bundlePlainW, NewPGPKeyBundle, entPrivW, List.mem_singleton] at hs
      subst hs
      rfl⟩

end PGP
